import Mathlib

/-!
Shallow embedding of `src/registrant/_geodatabase.py` (the `Geodatabase`
accessor of the `registrant` repository) and verification of its
specification claims.

Modelling conventions:
* Python `OrderedDict` is an association list `Od` built with `odSet`,
  which mirrors `od[k] = v` (updates in place, keeps first-insertion
  position, appends new keys at the end).
* An XML element (`xml.etree.ElementTree.Element`) is an `Xml` node with a
  tag, an optional text (`None` becomes `Option.none`) and a child list;
  `find` returns the first direct child with a given tag, `findall` all of
  them.
* Python exceptions that the code can raise or catch are the `PyExc` type;
  a computation that may raise is `Except PyExc α`.  `getattr(o, k, '')`
  never raises and is `pyGetattr`.
* `float(s)` on a decimal literal is `parseFloat : String → Option Rat`;
  `float(None)` is a `TypeError`, an unparsable string a `ValueError`.
* The two native backends are worlds: `ArcpyWorld` gives the results of
  the arcpy calls the code makes (`ListDomains`, `ListTables`,
  `ListDatasets`, `ListFeatureClasses`, `Describe`, descriptor-object
  construction), `OgrWorld` gives the ogr layer list and the parsed
  `Definition` column of the `GDB_Items` catalog rows.  Descriptor
  construction (`Table(...)`, `TableOgr(...)`, `FeatureClass(...)`,
  `FeatureClassOgr(...)` together with the property reads and
  `get_row_count()` done inside the corresponding `try` block) is an
  `Except PyExc Inst` supplied by the world: an `error` models any
  exception raised while processing that one item.
* The mapping tables live in `_util_mappings.py`, which is not under
  `src/`; they are modelled from the spec (see their doc comments).
* Methods take and return `self`: a Python assignment `self.attr = ...`
  would become a record update on the returned `Geodatabase`; the reads
  and the absence of writes are translated statement by statement.
-/

/-- A Python value as it appears in the ordered property mappings the
`Geodatabase` methods return: a string, a numeric (min, max) pair, a
code→name dict (keys/values are `Option String` because `Element.text`
can be `None`), or a row count. -/
inductive Value where
  | str (s : String)
  | range (lo hi : Rat)
  | coded (m : List (Option String × Option String))
  | num (n : Nat)
deriving DecidableEq, Repr

/-- An XML element: tag, text, direct children. -/
inductive Xml where
  | mk (tag : String) (text : Option String) (children : List Xml)

def Xml.tag : Xml → String
  | .mk t _ _ => t

def Xml.text : Xml → Option String
  | .mk _ tx _ => tx

def Xml.children : Xml → List Xml
  | .mk _ _ cs => cs

/-- `Element.find(tag)`: first direct child with the given tag, `None` if
there is none. -/
def Xml.find (x : Xml) (t : String) : Option Xml :=
  x.children.find? (fun c => c.tag = t)

/-- `Element.findall(tag)`: all direct children with the given tag. -/
def Xml.findall (x : Xml) (t : String) : List Xml :=
  x.children.filter (fun c => c.tag = t)

/-- Python exceptions relevant to this code. -/
inductive PyExc where
  | attrError
  | typeError
  | valueError
  | indexError
  | unboundLocal
  | other (msg : String)
deriving DecidableEq, Repr

/-- An ordered dict: association list in insertion order. -/
abbrev Od := List (String × Value)

/-- `od[k] = v`: replace in place if the key exists, else append. -/
def odSet (od : Od) (k : String) (v : Value) : Od :=
  if od.any (fun p => p.1 = k) then
    od.map (fun p => if p.1 = k then (k, v) else p)
  else
    od ++ [(k, v)]

/-- The keys of an ordered dict, in order. -/
def odKeys (od : Od) : List String :=
  od.map Prod.fst

/-- `od[k]` as a total lookup. -/
def odLookup (od : Od) (k : String) : Option Value :=
  (od.find? (fun p => p.1 = k)).map Prod.snd

/-- `for k, v in table.items(): od[v] = f k` starting from an empty
ordered dict, where `f` may raise. -/
def buildOdM (table : List (String × String)) (f : String → Except PyExc Value) :
    Except PyExc Od :=
  table.foldlM (fun od kv => do
    let v ← f kv.1
    pure (odSet od kv.2 v)) []

/-- `for k, v in table.items(): od[v] = f k` starting from an empty
ordered dict, for an `f` that cannot raise. -/
def buildOd (table : List (String × String)) (f : String → Value) : Od :=
  table.foldl (fun od kv => odSet od kv.2 (f kv.1)) []

/-- A Python object viewed through `getattr`: its attribute dictionary. -/
structure AttrObj where
  attrs : List (String × Value)
deriving DecidableEq, Repr

/-- `getattr(o, k, default)`: never raises. -/
def pyGetattr (o : AttrObj) (k : String) (dflt : Value) : Value :=
  match o.attrs.find? (fun p => p.1 = k) with
  | some p => p.2
  | none => dflt

/-- A constructed `Table`/`TableOgr`/`FeatureClass`/`FeatureClassOgr`
descriptor: its attributes plus the result of `get_row_count()`. -/
structure Inst where
  obj : AttrObj
  rowCount : Nat
deriving DecidableEq, Repr

/-- Dict lookup with default: `d.get(k, dflt)`. -/
def dictGet (d : List (String × String)) (k : String) (dflt : String) : String :=
  match d.find? (fun p => p.1 = k) with
  | some p => p.2
  | none => dflt

/-! ### Mapping tables (from `_util_mappings.py`, which is not under `src/`) -/

/-- Modelled from the spec: `_util_mappings.py` is missing from `src/`.
`GDB_PROPS` maps the accessor's own attribute names to the fixed
human-readable labels used by `get_pretty_props()` (§3: path identity,
release, workspace type). -/
def GDB_PROPS : List (String × String) :=
  [("path", "Path"), ("release", "Release"), ("wkspc_type", "Workspace type")]

/-- Modelled from the spec: `_util_mappings.py` is missing from `src/`.
`GDB_DOMAIN_PROPS` maps arcpy `Domain` attribute names to fixed labels
(§3: name, type, owner, associated field properties; coded values;
range); its label list coincides with `OGR_GDB_DOMAIN_PROPS`'s per the
§3 invariant that both backends produce structurally identical output. -/
def GDB_DOMAIN_PROPS : List (String × String) :=
  [("name", "Name"), ("owner", "Owner"), ("description", "Description"),
   ("type", "Field type"), ("domainType", "Domain type"),
   ("range", "Range"), ("codedValues", "Coded values")]

/-- Modelled from the spec: `_util_mappings.py` is missing from `src/`.
`OGR_GDB_DOMAIN_PROPS` maps the XML sub-element names of a domain
definition (plus the special keys `domainType`, `range`, `codedValues`
handled by dedicated branches in `get_domains`) to the same fixed labels
as `GDB_DOMAIN_PROPS`. -/
def OGR_GDB_DOMAIN_PROPS : List (String × String) :=
  [("DomainName", "Name"), ("Owner", "Owner"), ("Description", "Description"),
   ("FieldType", "Field type"), ("domainType", "Domain type"),
   ("range", "Range"), ("codedValues", "Coded values")]

/-- Modelled from the spec: `_util_mappings.py` is missing from `src/`.
`OGR_DOMAIN_PROPS_MAPPINGS` is the static lookup translating raw native
names — in particular the two domain root tags — into logical labels
(§4.2). -/
def OGR_DOMAIN_PROPS_MAPPINGS : List (String × String) :=
  [("GPCodedValueDomain2", "Coded value domain"),
   ("GPRangeDomain2", "Range domain"),
   ("esriFieldTypeString", "String"),
   ("esriFieldTypeInteger", "Integer"),
   ("esriFieldTypeDouble", "Double")]

/-- Modelled from the spec: `_util_mappings.py` is missing from `src/`.
`GDB_TABLE_PROPS` maps descriptor attribute names to fixed labels (§3:
name, field list); `Row count` is added separately as a custom prop. -/
def GDB_TABLE_PROPS : List (String × String) :=
  [("name", "Name"), ("aliasName", "Alias"), ("fields", "Fields")]

/-- Modelled from the spec: `_util_mappings.py` is missing from `src/`.
`GDB_FC_PROPS` maps descriptor attribute names to fixed labels (§3:
name, field list, geometry type, spatial reference); `Row count` and
`Feature dataset` are added separately as custom props. -/
def GDB_FC_PROPS : List (String × String) :=
  [("name", "Name"), ("aliasName", "Alias"), ("shapeType", "Geometry type"),
   ("spatialReference", "Spatial reference"), ("fields", "Fields")]

/-- Modelled from the spec: `_util_mappings.py` is missing from `src/`.
`GDB_RELEASE` is the version-triplet-to-label lookup used by
`_get_release` (§3). -/
def GDB_RELEASE : List (String × String) :=
  [("2,2,0", "9.2"), ("2,3,0", "9.3"), ("3,0,0", "10.x")]

/-- Modelled from the spec: `_util_mappings.py` is missing from `src/`.
`GDB_WKSPC_TYPE` maps workspace-factory ProgID fragments to the
enumerated workspace-type labels (§3: personal / file / enterprise). -/
def GDB_WKSPC_TYPE : List (String × String) :=
  [("esriDataSourcesGDB.AccessWorkspaceFactory", "Personal geodatabase"),
   ("esriDataSourcesGDB.FileGDBWorkspaceFactory", "File geodatabase"),
   ("esriDataSourcesGDB.SdeWorkspaceFactory", "Enterprise geodatabase")]

/-! ### `float()` on decimal literals -/

def digitVal (c : Char) : Option Nat :=
  if c.isDigit then some (c.toNat - 48) else none

def parseNatDigits (cs : List Char) : Option Nat :=
  match cs with
  | [] => none
  | _ => cs.foldlM (fun acc c => (digitVal c).map (fun d => acc * 10 + d)) 0

/-- `float(s)` for plain decimal literals `[-]digits[.digits]`; exact
rational semantics (the claims only compare such values for order). -/
def parseFloat (s : String) : Option Rat :=
  let cs := s.toList
  let (neg, cs) := match cs with
    | '-' :: rest => (true, rest)
    | _ => (false, cs)
  let intPart := cs.takeWhile (fun c => c.isDigit)
  let rest := cs.dropWhile (fun c => c.isDigit)
  let mag : Option Rat :=
    match rest with
    | [] => (parseNatDigits intPart).map (fun n => (n : Rat))
    | '.' :: frac =>
      if frac.all (fun c => c.isDigit) then
        (parseNatDigits (intPart ++ frac)).map
          (fun n => (n : Rat) / ((10 : Rat) ^ frac.length))
      else none
    | _ => none
  mag.map (fun q => if neg then -q else q)

/-! ### Backend worlds -/

/-- The arcpy backend's view of a geodatabase path: the results of every
arcpy call `_geodatabase.py` makes.  `listFeatureClasses` and
`fcInstance` are keyed by the current `arcpy.env.workspace`, which the
code mutates. -/
structure ArcpyWorld where
  describeRelease : String
  workspaceFactoryProgID : String
  domains : List AttrObj
  listTables : List String
  tableInstance : String → Except PyExc Inst
  listDatasets : List String
  listFeatureClasses : String → List String
  fcInstance : String → String → Except PyExc Inst

/-- One ogr layer: its name and its geometry column (`''` for none,
which is falsy in the Python test). -/
structure OgrLayer where
  name : String
  geometryColumn : String

/-- The ogr backend's view of a geodatabase path: the layer list and the
parsed `Definition` XML of each `GDB_Items` row (`none` when the column
is null/empty, the falsy case the code skips). -/
structure OgrWorld where
  layers : List OgrLayer
  gdbItems : List (Option Xml)
  tableInstance : String → Except PyExc Inst
  fcInstance : String → Except PyExc Inst

/-- Which backend library loaded (`arcpy_found`) together with that
backend's world. -/
inductive World where
  | arcpy (w : ArcpyWorld)
  | ogr (w : OgrWorld)

/-! ### The Geodatabase object -/

/-- The `Geodatabase` instance attributes set by `__init__`. -/
structure Geodatabase where
  path : String
  release : String
  wkspc_type : String
deriving DecidableEq, Repr

/-- `self.__dict__[k]` for the attributes `__init__` sets. -/
def gdbDictGet (g : Geodatabase) (k : String) : Except PyExc Value :=
  if k = "path" then .ok (.str g.path)
  else if k = "release" then .ok (.str g.release)
  else if k = "wkspc_type" then .ok (.str g.wkspc_type)
  else .error (.other "KeyError")

/-- `os.path.join(a, b)`. -/
def pathJoin (a b : String) : String := a ++ "/" ++ b

/-- `key.lower() in progID.lower()`: case-insensitive substring test. -/
def lowerContains (progID key : String) : Bool :=
  decide (key.toLower.toList <:+: progID.toLower.toList)

/-- `_ogr_get_gdb_metadata`: scan the `GDB_Items` definitions, remember
the last parsed XML, stop at the first `DEWorkspace`; referencing `xml`
when no row parsed raises (`UnboundLocalError`). -/
def ogrGetGdbMetadata (rows : List (Option Xml)) : Except PyExc Xml :=
  go rows none
where
  go : List (Option Xml) → Option Xml → Except PyExc Xml
  | [], none => .error .unboundLocal
  | [], some x => .ok x
  | none :: rest, acc => go rest acc
  | some x :: rest, acc =>
    if x.tag = "DEWorkspace" then .ok x
    else
      have : acc = acc := rfl
      go rest (some x)

/-- Append to a `defaultdict(list)` entry: extend the existing group in
place, or create a new one at the end (dict insertion order). -/
def groupAppend : List (String × List Xml) → String → Xml → List (String × List Xml)
  | [], k, x => [(k, [x])]
  | p :: rest, k, x =>
    if p.1 = k then (p.1, p.2 ++ [x]) :: rest else p :: groupAppend rest k x

/-- Look a tag's group up in a `defaultdict(list)` (`[]` when absent). -/
def groupLookup (d : List (String × List Xml)) (t : String) : List Xml :=
  match d.find? (fun p => p.1 = t) with
  | some p => p.2
  | none => []

/-- `_ogr_get_domains`: group the parsed `GDB_Items` definitions whose
root tag is `GPCodedValueDomain2` or `GPRangeDomain2` by tag; every
other root tag is ignored. -/
def ogrGetDomains (rows : List (Option Xml)) : List (String × List Xml) :=
  rows.foldl (fun d row =>
    match row with
    | none => d
    | some xml =>
      if xml.tag = "GPCodedValueDomain2" ∨ xml.tag = "GPRangeDomain2" then
        groupAppend d xml.tag xml
      else d) []

/-- `float(domain.find(tag).text)`: `AttributeError` when the child is
missing, `TypeError` on `None` text, `ValueError` on unparsable text. -/
def pyFloatOfFind (domain : Xml) (tag : String) : Except PyExc Rat :=
  match domain.find tag with
  | none => .error .attrError
  | some e =>
    match e.text with
    | none => .error .typeError
    | some t =>
      match parseFloat t with
      | some q => .ok q
      | none => .error .valueError

/-- The `range` branch of the fallback `get_domains`: build the
`(float(min), float(max))` pair, with only `AttributeError` caught
(missing child element → `''`). -/
def rangeValue (domain : Xml) : Except PyExc Value :=
  match (do
      let a ← pyFloatOfFind domain "MinValue"
      let b ← pyFloatOfFind domain "MaxValue"
      pure (a, b) : Except PyExc (Rat × Rat)) with
  | .ok (a, b) => .ok (.range a b)
  | .error .attrError => .ok (.str "")
  | .error e => .error e

/-- `d[k] = v` on a Python dict with `Option String` keys (an
`Element.text` may be `None`): overwrite the existing entry in place,
else append at the end. -/
def dictUpsert : List (Option String × Option String) → Option String → Option String →
    List (Option String × Option String)
  | [], k, v => [(k, v)]
  | p :: rest, k, v =>
    if p.1 = k then (k, v) :: rest else p :: dictUpsert rest k v

/-- `m[k]` on a Python dict with `Option String` keys, as a total
lookup. -/
def lookupOpt (m : List (Option String × Option String)) (k : Option String) :
    Option (Option String) :=
  (m.find? (fun p => p.1 = k)).map Prod.snd

/-- The dict comprehension `{cv.find('Code').text: cv.find('Name').text
for cv in cvs}`: `none` when some `CodedValue` lacks a `Code` or `Name`
child (`AttributeError`). Later duplicates overwrite in place. -/
def codedDict (cvs : List Xml) : Option (List (Option String × Option String)) :=
  cvs.foldlM (fun d cv => do
    let c ← cv.find "Code"
    let n ← cv.find "Name"
    pure (dictUpsert d c.text n.text)) []

/-- The `codedValues` branch of the fallback `get_domains`: walk the
`CodedValue` children of `CodedValues`; any `AttributeError` (missing
`CodedValues`, or a missing `Code`/`Name` inside) yields `''`. -/
def codedValuesValue (domain : Xml) : Value :=
  match domain.find "CodedValues" with
  | none => .str ""
  | some cvsEl =>
    match codedDict (cvsEl.findall "CodedValue") with
    | some d => .coded d
    | none => .str ""

/-- The final `else` branch of the fallback `get_domains` loop:
`if domain.find(k).text: od[v] = OGR_DOMAIN_PROPS_MAPPINGS.get(text, text)
else ''`, with a missing child (`AttributeError`) caught to `''`. -/
def genericValue (domain : Xml) (k : String) : Value :=
  match domain.find k with
  | none => .str ""
  | some e =>
    match e.text with
    | none => .str ""
    | some t =>
      if t ≠ "" then .str (dictGet OGR_DOMAIN_PROPS_MAPPINGS t t)
      else .str ""

/-- One `od[v]` assignment of the fallback `get_domains` loop, per
source key `k` of `OGR_GDB_DOMAIN_PROPS`. -/
def ogrDomainValue (domain_type : String) (domain : Xml) (k : String) :
    Except PyExc Value :=
  if k = "domainType" then
    .ok (.str (dictGet OGR_DOMAIN_PROPS_MAPPINGS domain_type ""))
  else if k = "range" then
    rangeValue domain
  else if k = "codedValues" then
    .ok (codedValuesValue domain)
  else
    .ok (genericValue domain k)

/-- The ordered dict the fallback `get_domains` builds for one domain
definition. -/
def buildDomainOdOgr (domain_type : String) (domain : Xml) : Except PyExc Od :=
  buildOdM OGR_GDB_DOMAIN_PROPS (ogrDomainValue domain_type domain)

/-- The ordered dict the arcpy `get_domains` builds for one domain
object: `od[v] = getattr(domain, k, '')`. -/
def buildDomainOdArcpy (domain : AttrObj) : Od :=
  buildOd GDB_DOMAIN_PROPS (fun k => pyGetattr domain k (.str ""))

/-- `get_domains`: list of per-domain ordered dicts.  The arcpy path
cannot raise; on the fallback path a `TypeError`/`ValueError` from a
present-but-malformed bound propagates. -/
def Geodatabase.get_domains (g : Geodatabase) (w : World) :
    Except PyExc (List Od) × Geodatabase :=
  match w with
  | .arcpy aw =>
    (.ok (aw.domains.map buildDomainOdArcpy), g)
  | .ogr ow =>
    let r := (ogrGetDomains ow.gdbItems).foldlM
      (fun acc p =>
        p.2.foldlM (fun acc2 domain => do
          let od ← buildDomainOdOgr p.1 domain
          pure (acc2 ++ [od])) acc)
      ([] : List Od)
    (r, g)

/-- `get_pretty_props`: project the object's own attributes through
`GDB_PROPS`. -/
def Geodatabase.get_pretty_props (g : Geodatabase) : Except PyExc Od × Geodatabase :=
  (buildOdM GDB_PROPS (fun k => gdbDictGet g k), g)

/-- The ordered dict built for one table/feature-class descriptor from a
property table: `od[v] = getattr(inst, k, '')` then the `Row count`
custom prop. -/
def buildInstOd (table : List (String × String)) (inst : Inst) : Od :=
  odSet (buildOd table (fun k => pyGetattr inst.obj k (.str ""))) "Row count"
    (.num inst.rowCount)

/-- The shared shape of the item loops that wrap each iteration in
`try/except`: build the ordered dict for each item whose descriptor
construction succeeds, print a notice and skip the item otherwise. -/
def collectItems (instFn : String → Except PyExc Inst) (mk : Inst → Od)
    (notice : String → PyExc → String) (names : List String) :
    List Od × List String :=
  names.foldl (fun acc n =>
    match instFn n with
    | .ok inst => (acc.1 ++ [mk inst], acc.2)
    | .error e => (acc.1, acc.2 ++ [notice n e])) ([], [])

/-- The item loop of the arcpy `get_feature_classes` branch, which has
no `try/except`: the first failing descriptor construction propagates. -/
def collectItemsStrict (instFn : String → Except PyExc Inst) (mk : Inst → Od)
    (names : List String) (acc : List Od) : Except PyExc (List Od) :=
  names.foldlM (fun a n => do
    let inst ← instFn n
    pure (a ++ [mk inst])) acc

/-- `get_tables`: per-table ordered dicts plus the printed error notices;
per-item failures are caught on both paths, so the method itself never
raises. -/
def Geodatabase.get_tables (g : Geodatabase) (w : World) :
    (List Od × List String) × Geodatabase :=
  match w with
  | .arcpy aw =>
    (collectItems aw.tableInstance (buildInstOd GDB_TABLE_PROPS)
      (fun tbl e => "Error. Could not read table " ++ tbl ++ " . Reason: " ++ reprStr e)
      aw.listTables, g)
  | .ogr ow =>
    let table_names := (ow.layers.filter (fun l => l.geometryColumn = "")).map
      (fun l => l.name)
    (collectItems ow.tableInstance (buildInstOd GDB_TABLE_PROPS)
      (fun _ e => reprStr e) table_names, g)

/-- `get_feature_classes`: on the arcpy path, walk the feature datasets
first (tagging each dict with the dataset name), then the root feature
classes (tagged `''`); nothing is caught, so a per-item failure
propagates.  On the ogr path all spatial layers are walked flat, no
`Feature dataset` key is written, and per-item failures are caught and
printed. -/
def Geodatabase.get_feature_classes (g : Geodatabase) (w : World) :
    Except PyExc (List Od × List String) × Geodatabase :=
  match w with
  | .arcpy aw =>
    let fds := aw.listDatasets
    let inDatasets : Except PyExc (List Od) :=
      if fds ≠ [] then
        fds.foldlM (fun acc fd =>
          let workspace := pathJoin g.path fd
          collectItemsStrict (aw.fcInstance workspace)
            (fun inst => odSet (buildInstOd GDB_FC_PROPS inst) "Feature dataset" (.str fd))
            (aw.listFeatureClasses workspace) acc) []
      else .ok []
    let r := do
      let fcs ← inDatasets
      let fcs2 ← collectItemsStrict (aw.fcInstance g.path)
        (fun inst => odSet (buildInstOd GDB_FC_PROPS inst) "Feature dataset" (.str ""))
        (aw.listFeatureClasses g.path) fcs
      pure (fcs2, ([] : List String))
    (r, g)
  | .ogr ow =>
    let fcs_names := (ow.layers.filter (fun l => l.geometryColumn ≠ "")).map
      (fun l => l.name)
    (.ok (collectItems ow.fcInstance (buildInstOd GDB_FC_PROPS)
      (fun _ e => reprStr e) fcs_names), g)

/-- `_get_release`: arcpy path looks the Describe release up in
`GDB_RELEASE`; ogr path joins the three version elements of the
`DEWorkspace` metadata (a missing element or `None` text raises). -/
def getRelease (w : World) (_path : String) : Except PyExc String :=
  match w with
  | .arcpy aw => .ok (dictGet GDB_RELEASE aw.describeRelease "")
  | .ogr ow => do
    let xml ← ogrGetGdbMetadata ow.gdbItems
    let getText : String → Except PyExc String := fun tag =>
      match xml.find tag with
      | none => .error .attrError
      | some e =>
        match e.text with
        | none => .error .typeError
        | some t => .ok t
    let major ← getText "MajorVersion"
    let minor ← getText "MinorVersion"
    let bugfix ← getText "BugfixVersion"
    pure (dictGet GDB_RELEASE (major ++ "," ++ minor ++ "," ++ bugfix) "")

/-- `_get_wkspc_type`: arcpy path takes the first `GDB_WKSPC_TYPE` value
whose key occurs (case-insensitively) in the workspace factory ProgID
(`IndexError` if none); the fallback path returns the constant
`'File geodatabase'`. -/
def getWkspcType (w : World) (_path : String) : Except PyExc String :=
  match w with
  | .arcpy aw =>
    match (GDB_WKSPC_TYPE.filter
        (fun kv => lowerContains aw.workspaceFactoryProgID kv.1)).map Prod.snd with
    | [] => .error .indexError
    | v :: _ => .ok v
  | .ogr _ => .ok "File geodatabase"

/-- `__init__`: store the path, then resolve release and workspace type
by probing the active backend; failures propagate. -/
def mkGeodatabase (w : World) (path : String) : Except PyExc Geodatabase := do
  let release ← getRelease w path
  let wkspc_type ← getWkspcType w path
  pure { path := path, release := release, wkspc_type := wkspc_type }

/-! ### Fixed label lists and concrete sample data used by the claims -/

/-- The fixed key list of every domain mapping. -/
def domainLabels : List String :=
  ["Name", "Owner", "Description", "Field type", "Domain type", "Range", "Coded values"]

/-- The fixed key list of every table mapping. -/
def tableLabels : List String :=
  ["Name", "Alias", "Fields", "Row count"]

/-- The key list of a fallback-path feature-class mapping. -/
def fcLabelsOgr : List String :=
  ["Name", "Alias", "Geometry type", "Spatial reference", "Fields", "Row count"]

/-- The key list of a primary-path feature-class mapping. -/
def fcLabelsArcpy : List String :=
  fcLabelsOgr ++ ["Feature dataset"]

/-- The fixed key list of `get_pretty_props()`. -/
def prettyLabels : List String :=
  ["Path", "Release", "Workspace type"]

/-- A trivially constructible descriptor. -/
def sampleInst : Inst := ⟨⟨[]⟩, 0⟩

/-- A sample accessor object. -/
def gSample : Geodatabase :=
  { path := "sample.gdb", release := "10.x", wkspc_type := "File geodatabase" }

/-- An arcpy world with one root feature class whose descriptor builds
fine. -/
def awOneFc : ArcpyWorld :=
  { describeRelease := "3,0,0"
    workspaceFactoryProgID := "esriDataSourcesGDB.FileGDBWorkspaceFactory.1"
    domains := []
    listTables := []
    tableInstance := fun _ => .ok sampleInst
    listDatasets := []
    listFeatureClasses := fun _ => ["roads"]
    fcInstance := fun _ _ => .ok sampleInst }

/-- An ogr world on the same logical geodatabase: one spatial layer whose
descriptor builds fine. -/
def owOneFc : OgrWorld :=
  { layers := [⟨"roads", "SHAPE"⟩]
    gdbItems := []
    tableInstance := fun _ => .ok sampleInst
    fcInstance := fun _ => .ok sampleInst }

/-- An arcpy world with one root feature class whose descriptor
construction raises. -/
def awFcFails : ArcpyWorld :=
  { describeRelease := "3,0,0"
    workspaceFactoryProgID := "esriDataSourcesGDB.FileGDBWorkspaceFactory.1"
    domains := []
    listTables := []
    tableInstance := fun _ => .ok sampleInst
    listDatasets := []
    listFeatureClasses := fun _ => ["corrupt_fc"]
    fcInstance := fun _ _ => .error (.other "arcgis error") }

/-- A range-domain definition whose stored bounds are out of order. -/
def dRangeBad : Xml :=
  .mk "GPRangeDomain2" none
    [.mk "MinValue" (some "5") [], .mk "MaxValue" (some "2") []]

/-- A well-formed range-domain definition. -/
def dRangeGood : Xml :=
  .mk "GPRangeDomain2" none
    [.mk "DomainName" (some "Heights") [],
     .mk "MinValue" (some "2") [], .mk "MaxValue" (some "5") []]

/-- A coded value `1 → Yes`. -/
def cvYes : Xml :=
  .mk "CodedValue" none [.mk "Code" (some "1") [], .mk "Name" (some "Yes") []]

/-- A coded value `2 → No`. -/
def cvNo : Xml :=
  .mk "CodedValue" none [.mk "Code" (some "2") [], .mk "Name" (some "No") []]

/-- The `CodedValues` container of `dCoded`. -/
def cvsElCoded : Xml := .mk "CodedValues" none [cvYes, cvNo]

/-- A coded-value domain definition with two coded values. -/
def dCoded : Xml :=
  .mk "GPCodedValueDomain2" none
    [.mk "DomainName" (some "YesNo") [], cvsElCoded]

/-- A domain definition missing every optional sub-element. -/
def dBare : Xml := .mk "GPRangeDomain2" none []

/-- An ogr world whose catalog holds a single range domain whose stored
bounds are out of order. -/
def owBadRange : OgrWorld :=
  { layers := []
    gdbItems := [some dRangeBad]
    tableInstance := fun _ => .ok sampleInst
    fcInstance := fun _ => .ok sampleInst }

/-- An ogr world whose `GDB_Items` catalog carries a `DEWorkspace`
metadata row, two domain rows and an unrelated row. -/
def owCatalog : OgrWorld :=
  { layers := []
    gdbItems :=
      [some (.mk "DEWorkspace" none
        [.mk "MajorVersion" (some "3") [], .mk "MinorVersion" (some "0") [],
         .mk "BugfixVersion" (some "0") []]),
       none,
       some dCoded,
       some (.mk "DEFeatureClassInfo" none []),
       some dRangeGood]
    tableInstance := fun _ => .ok sampleInst
    fcInstance := fun _ => .ok sampleInst }

/-- The ordered dict the fallback `get_domains` builds for `dBare`. -/
def odBare : Od :=
  [("Name", .str ""), ("Owner", .str ""), ("Description", .str ""),
   ("Field type", .str ""), ("Domain type", .str "Range domain"),
   ("Range", .str ""), ("Coded values", .str "")]

/-- The ordered dict the fallback `get_domains` builds for `dCoded`. -/
def odCoded : Od :=
  [("Name", .str "YesNo"), ("Owner", .str ""), ("Description", .str ""),
   ("Field type", .str ""), ("Domain type", .str "Coded value domain"),
   ("Range", .str ""),
   ("Coded values", .coded [(some "1", some "Yes"), (some "2", some "No")])]

/-- The ordered dict the fallback `get_domains` builds for
`dRangeGood`. -/
def odRangeGood : Od :=
  [("Name", .str "Heights"), ("Owner", .str ""), ("Description", .str ""),
   ("Field type", .str ""), ("Domain type", .str "Range domain"),
   ("Range", .range 2 5), ("Coded values", .str "")]

/-! ### Helper lemmas -/

theorem exceptBind_ok {α β : Type} (x : α) (f : α → Except PyExc β) :
    (Except.ok x >>= f : Except PyExc β) = f x := rfl

theorem exceptBind_error {α β : Type} (e : PyExc) (f : α → Except PyExc β) :
    (Except.error e >>= f : Except PyExc β) = .error e := rfl

/-- Explicit form of the fallback per-domain ordered dict when the range
branch does not raise. -/
theorem buildDomainOdOgr_ok (dt : String) (d : Xml) (rv : Value)
    (h : rangeValue d = .ok rv) :
    buildDomainOdOgr dt d = .ok
      [("Name", genericValue d "DomainName"), ("Owner", genericValue d "Owner"),
       ("Description", genericValue d "Description"), ("Field type", genericValue d "FieldType"),
       ("Domain type", .str (dictGet OGR_DOMAIN_PROPS_MAPPINGS dt "")),
       ("Range", rv), ("Coded values", codedValuesValue d)] := by
  simp [buildDomainOdOgr, buildOdM, ogrDomainValue, List.foldlM, h, odSet,
    exceptBind_ok, exceptBind_error]

/-- The only branch of the fallback per-domain loop that can raise is
the range one. -/
theorem buildDomainOdOgr_error (dt : String) (d : Xml) (e : PyExc)
    (h : rangeValue d = .error e) :
    buildDomainOdOgr dt d = .error e := by
  simp [buildDomainOdOgr, buildOdM, ogrDomainValue, List.foldlM, h, odSet,
    exceptBind_ok, exceptBind_error]

/-- `float(domain.find(tag).text)` equation: missing child. -/
theorem pyFloatOfFind_absent (d : Xml) (tag : String) (h : d.find tag = none) :
    pyFloatOfFind d tag = .error .attrError := by
  simp [pyFloatOfFind, h]

/-- `float(domain.find(tag).text)` equation: `None` text. -/
theorem pyFloatOfFind_text_none (d : Xml) (tag : String) (el : Xml)
    (h : d.find tag = some el) (ht : el.text = none) :
    pyFloatOfFind d tag = .error .typeError := by
  simp [pyFloatOfFind, h, ht]

/-- `float(domain.find(tag).text)` equation: unparsable text. -/
theorem pyFloatOfFind_bad_text (d : Xml) (tag : String) (el : Xml) (t : String)
    (h : d.find tag = some el) (ht : el.text = some t) (hp : parseFloat t = none) :
    pyFloatOfFind d tag = .error .valueError := by
  simp [pyFloatOfFind, h, ht, hp]

/-- `float(domain.find(tag).text)` equation: parseable text. -/
theorem pyFloatOfFind_parsed (d : Xml) (tag : String) (el : Xml) (t : String) (q : Rat)
    (h : d.find tag = some el) (ht : el.text = some t) (hp : parseFloat t = some q) :
    pyFloatOfFind d tag = .ok q := by
  simp [pyFloatOfFind, h, ht, hp]

/-- A missing `MinValue` child is caught (`AttributeError`) and gives the
empty-string placeholder. -/
theorem rangeValue_min_absent (d : Xml) (h : d.find "MinValue" = none) :
    rangeValue d = .ok (.str "") := by
  simp [rangeValue, pyFloatOfFind_absent d _ h, exceptBind_error]

/-- When the range branch succeeds and `MaxValue` is missing, the result
is the empty-string placeholder. -/
theorem rangeValue_ok_max_absent (d : Xml) (rv : Value)
    (hmax : d.find "MaxValue" = none) (h : rangeValue d = .ok rv) :
    rv = .str "" := by
  have hm : pyFloatOfFind d "MaxValue" = .error .attrError := pyFloatOfFind_absent d _ hmax
  cases hmin : pyFloatOfFind d "MinValue" with
  | ok q =>
    simp [rangeValue, hmin, hm, exceptBind_ok] at h
    exact h.symm
  | error e =>
    cases e
    all_goals simp [rangeValue, hmin, exceptBind_error] at h
    all_goals exact h.symm

/-- When both bounds are present with parseable text, the range branch
passes the stored pair through unmodified. -/
theorem rangeValue_both (d : Xml) (e1 e2 : Xml) (t1 t2 : String) (q1 q2 : Rat)
    (h1 : d.find "MinValue" = some e1) (ht1 : e1.text = some t1)
    (hp1 : parseFloat t1 = some q1)
    (h2 : d.find "MaxValue" = some e2) (ht2 : e2.text = some t2)
    (hp2 : parseFloat t2 = some q2) :
    rangeValue d = .ok (.range q1 q2) := by
  simp [rangeValue, pyFloatOfFind_parsed d _ e1 t1 q1 h1 ht1 hp1,
    pyFloatOfFind_parsed d _ e2 t2 q2 h2 ht2 hp2, exceptBind_ok]

/-- A range-branch failure requires a present `MinValue` element and is a
`TypeError` or `ValueError`, never a (caught) `AttributeError`. -/
theorem rangeValue_error_shape (d : Xml) (e : PyExc) (h : rangeValue d = .error e) :
    (∃ el, d.find "MinValue" = some el) ∧ (e = .typeError ∨ e = .valueError) := by
  cases hmin : d.find "MinValue" with
  | none => rw [rangeValue_min_absent d hmin] at h; exact absurd h (by simp)
  | some el =>
    refine ⟨⟨el, rfl⟩, ?_⟩
    cases htx : el.text with
    | none =>
      rw [rangeValue] at h
      rw [pyFloatOfFind_text_none d _ el hmin htx] at h
      simp [exceptBind_error] at h
      exact Or.inl h.symm
    | some t =>
      cases hp : parseFloat t with
      | none =>
        rw [rangeValue] at h
        rw [pyFloatOfFind_bad_text d _ el t hmin htx hp] at h
        simp [exceptBind_error] at h
        exact Or.inr h.symm
      | some q1 =>
        have hok1 := pyFloatOfFind_parsed d _ el t q1 hmin htx hp
        cases hmax : d.find "MaxValue" with
        | none =>
          rw [rangeValue] at h
          rw [hok1, pyFloatOfFind_absent d _ hmax] at h
          simp [exceptBind_ok, exceptBind_error] at h
        | some el2 =>
          cases htx2 : el2.text with
          | none =>
            rw [rangeValue] at h
            rw [hok1, pyFloatOfFind_text_none d _ el2 hmax htx2] at h
            simp [exceptBind_ok, exceptBind_error] at h
            exact Or.inl h.symm
          | some t2 =>
            cases hp2 : parseFloat t2 with
            | none =>
              rw [rangeValue] at h
              rw [hok1, pyFloatOfFind_bad_text d _ el2 t2 hmax htx2 hp2] at h
              simp [exceptBind_ok, exceptBind_error] at h
              exact Or.inr h.symm
            | some q2 =>
              rw [rangeValue_both d el el2 t t2 q1 q2 hmin htx hp hmax htx2 hp2] at h
              exact absurd h (by simp)

theorem exceptPure {α : Type} (x : α) : (pure x : Except PyExc α) = .ok x := rfl

/-- Characterization of the caught item loops: the ordered dicts of the
items whose descriptor builds, in enumeration order, next to one notice
per failing item — nothing is ever raised. -/
theorem collectItems_spec (instFn : String → Except PyExc Inst) (mk : Inst → Od)
    (notice : String → PyExc → String) (names : List String) :
    collectItems instFn mk notice names =
      (names.filterMap (fun n =>
          match instFn n with | .ok inst => some (mk inst) | .error _ => none),
       names.filterMap (fun n =>
          match instFn n with | .ok _ => none | .error e => some (notice n e))) := by
  have aux : ∀ (names : List String) (acc : List Od × List String),
      names.foldl (fun acc n =>
        match instFn n with
        | .ok inst => (acc.1 ++ [mk inst], acc.2)
        | .error e => (acc.1, acc.2 ++ [notice n e])) acc =
      (acc.1 ++ names.filterMap (fun n =>
          match instFn n with | .ok inst => some (mk inst) | .error _ => none),
       acc.2 ++ names.filterMap (fun n =>
          match instFn n with | .ok _ => none | .error e => some (notice n e))) := by
    intro names
    induction names with
    | nil => intro acc; simp
    | cons n rest ih =>
      intro acc
      cases hn : instFn n with
      | ok inst => simp [List.foldl_cons, hn, ih, List.filterMap_cons]
      | error e => simp [List.foldl_cons, hn, ih, List.filterMap_cons]
  simpa [collectItems] using aux names ([], [])

/-- Membership in a caught item loop's output: every emitted dict comes
from an item whose descriptor built. -/
theorem collectItems_mem (instFn : String → Except PyExc Inst) (mk : Inst → Od)
    (notice : String → PyExc → String) (names : List String) (od : Od)
    (h : od ∈ (collectItems instFn mk notice names).1) :
    ∃ n inst, instFn n = .ok inst ∧ od = mk inst := by
  rw [collectItems_spec] at h
  rcases List.mem_filterMap.1 h with ⟨n, _, hn⟩
  cases hinst : instFn n with
  | ok inst => exact ⟨n, inst, hinst, by simp [hinst] at hn; exact hn.symm⟩
  | error e => simp [hinst] at hn

/-- Membership in the uncaught item loop's output when it succeeds. -/
theorem collectItemsStrict_ok_mem (instFn : String → Except PyExc Inst) (mk : Inst → Od) :
    ∀ (names : List String) (acc res : List Od),
      collectItemsStrict instFn mk names acc = .ok res →
      ∀ od ∈ res, od ∈ acc ∨ ∃ n inst, instFn n = .ok inst ∧ od = mk inst := by
  intro names
  induction names with
  | nil =>
    intro acc res h od hod
    simp [collectItemsStrict, List.foldlM, exceptPure] at h
    subst h
    exact Or.inl hod
  | cons n rest ih =>
    intro acc res h od hod
    cases hn : instFn n with
    | error e =>
      rw [collectItemsStrict, List.foldlM_cons] at h
      simp [hn, exceptBind_error] at h
    | ok inst =>
      rw [collectItemsStrict, List.foldlM_cons] at h
      have h1 : (do let inst ← instFn n; pure (acc ++ [mk inst]) :
          Except PyExc (List Od)) = .ok (acc ++ [mk inst]) := by
        rw [hn]; rfl
      rw [h1, exceptBind_ok] at h
      rw [show (List.foldlM (fun a n => do
            let inst ← instFn n
            pure (a ++ [mk inst])) (acc ++ [mk inst]) rest : Except PyExc (List Od)) =
          collectItemsStrict instFn mk rest (acc ++ [mk inst]) from rfl] at h
      rcases ih (acc ++ [mk inst]) res h od hod with hmem | ⟨n2, i2, hi, he⟩
      · rcases List.mem_append.1 hmem with hmem1 | hmem1
        · exact Or.inl hmem1
        · exact Or.inr ⟨n, inst, hn, by simpa using hmem1⟩
      · exact Or.inr ⟨n2, i2, hi, he⟩

/-- Closed form of the uncaught item loop when every descriptor builds. -/
theorem collectItemsStrict_all_ok (instFn : String → Except PyExc Inst) (mk : Inst → Od)
    (instOf : String → Inst) (hall : ∀ n, instFn n = .ok (instOf n)) :
    ∀ (names : List String) (acc : List Od),
      collectItemsStrict instFn mk names acc =
        .ok (acc ++ names.map (fun n => mk (instOf n))) := by
  intro names
  induction names with
  | nil => intro acc; simp [collectItemsStrict, List.foldlM, exceptPure]
  | cons n rest ih =>
    intro acc
    rw [collectItemsStrict, List.foldlM_cons]
    have h1 : (do let inst ← instFn n; pure (acc ++ [mk inst]) :
        Except PyExc (List Od)) = .ok (acc ++ [mk (instOf n)]) := by
      rw [hall n]; rfl
    rw [h1, exceptBind_ok]
    have h2 := ih (acc ++ [mk (instOf n)])
    rw [collectItemsStrict] at h2
    rw [h2]
    simp

/-- Generic membership through an error-propagating fold of item blocks. -/
theorem foldlM_strict_mem {α : Type} (step : List Od → α → Except PyExc (List Od))
    (P : Od → Prop)
    (hstep : ∀ acc x res od, step acc x = .ok res → od ∈ res → od ∈ acc ∨ P od) :
    ∀ (xs : List α) (acc res : List Od),
      xs.foldlM step acc = .ok res → ∀ od ∈ res, od ∈ acc ∨ P od := by
  intro xs
  induction xs with
  | nil =>
    intro acc res h od hod
    simp [List.foldlM, exceptPure] at h
    subst h
    exact Or.inl hod
  | cons x rest ih =>
    intro acc res h od hod
    rw [List.foldlM_cons] at h
    cases hx : step acc x with
    | error e => rw [hx, exceptBind_error] at h; exact absurd h (by simp)
    | ok acc2 =>
      rw [hx, exceptBind_ok] at h
      rcases ih acc2 res h od hod with hmem | hp
      · exact hstep acc x acc2 od hx hmem
      · exact Or.inr hp

theorem groupLookup_nil (t : String) : groupLookup [] t = [] := rfl

theorem groupLookup_cons (p : String × List Xml) (d : List (String × List Xml))
    (t : String) :
    groupLookup (p :: d) t = if p.1 = t then p.2 else groupLookup d t := by
  by_cases h : p.1 = t <;> simp [groupLookup, List.find?_cons, h]

/-- Looking a tag up after a `defaultdict` append. -/
theorem groupLookup_groupAppend :
    ∀ (d : List (String × List Xml)) (k : String) (x : Xml) (t : String),
      groupLookup (groupAppend d k x) t =
        if t = k then groupLookup d k ++ [x] else groupLookup d t := by
  intro d k x
  induction d with
  | nil =>
    intro t
    by_cases h : t = k
    · subst h; simp [groupAppend, groupLookup_cons, groupLookup_nil]
    · have h2 : ¬ (k = t) := fun hc => h hc.symm
      simp [groupAppend, groupLookup_cons, groupLookup_nil, h, h2]
  | cons p rest ih =>
    intro t
    by_cases hpk : p.1 = k
    · rw [groupAppend, if_pos hpk]
      by_cases ht : t = k
      · have hpt : p.1 = t := by rw [hpk, ht]
        simp [groupLookup_cons, hpt, hpk, ht]
      · have hpt : ¬ p.1 = t := fun hc => ht (by rw [← hc, hpk])
        simp [groupLookup_cons, hpt, ht]
    · rw [groupAppend, if_neg hpk]
      by_cases hpt : p.1 = t
      · have ht : ¬ t = k := fun hc => hpk (by rw [hpt, hc])
        simp [groupLookup_cons, hpt, ht]
      · by_cases ht : t = k
        · simp [groupLookup_cons, hpt, ht, ih, hpk]
        · simp [groupLookup_cons, hpt, ht, ih, hpk]

/-- Every entry of a `defaultdict` after an append was there before or
carries the appended key. -/
theorem mem_groupAppend :
    ∀ (d : List (String × List Xml)) (k : String) (x : Xml)
      (p : String × List Xml), p ∈ groupAppend d k x → p.1 = k ∨ p ∈ d := by
  intro d k x
  induction d with
  | nil =>
    intro p hp
    simp [groupAppend] at hp
    subst hp
    exact Or.inl rfl
  | cons y rest ih =>
    intro p hp
    by_cases hqk : y.1 = k
    · rw [groupAppend, if_pos hqk] at hp
      rcases List.mem_cons.1 hp with h1 | h1
      · subst h1; exact Or.inl hqk
      · exact Or.inr (List.mem_cons_of_mem y h1)
    · rw [groupAppend, if_neg hqk] at hp
      rcases List.mem_cons.1 hp with h1 | h1
      · exact Or.inr (by rw [h1]; exact List.mem_cons_self y rest)
      · rcases ih p h1 with h2 | h2
        · exact Or.inl h2
        · exact Or.inr (List.mem_cons_of_mem y h2)

/-- The per-tag contents of the domain scan, fold form. -/
theorem ogrGetDomains_fold_lookup :
    ∀ (rows : List (Option Xml)) (acc : List (String × List Xml)) (t : String),
      groupLookup (rows.foldl (fun d row =>
        match row with
        | none => d
        | some xml =>
          if xml.tag = "GPCodedValueDomain2" ∨ xml.tag = "GPRangeDomain2" then
            groupAppend d xml.tag xml
          else d) acc) t =
      groupLookup acc t ++
        (if t = "GPCodedValueDomain2" ∨ t = "GPRangeDomain2" then
          (rows.filterMap id).filter (fun x => x.tag = t) else []) := by
  intro rows
  induction rows with
  | nil =>
    intro acc t
    by_cases h : t = "GPCodedValueDomain2" ∨ t = "GPRangeDomain2" <;>
      simp [h]
  | cons row rest ih =>
    intro acc t
    cases row with
    | none =>
      simp only [List.foldl_cons, List.filterMap_cons]
      exact ih acc t
    | some x =>
      simp only [List.foldl_cons, List.filterMap_cons]
      by_cases hx : x.tag = "GPCodedValueDomain2" ∨ x.tag = "GPRangeDomain2"
      · rw [if_pos hx, ih (groupAppend acc x.tag x) t, groupLookup_groupAppend]
        by_cases ht : t = x.tag
        · subst ht
          simp [hx, List.filter_cons]
        · by_cases ht2 : t = "GPCodedValueDomain2" ∨ t = "GPRangeDomain2"
          · have hxt : ¬ (x.tag = t) := fun hc => ht hc.symm
            simp [ht2, hxt, List.filter_cons]
            exact fun hc => absurd hc ht
          · simp [ht2]
            exact fun hc => absurd hc ht
      · rw [if_neg hx, ih acc t]
        by_cases ht2 : t = "GPCodedValueDomain2" ∨ t = "GPRangeDomain2"
        · have hxt : ¬ (x.tag = t) := by
            intro hc
            apply hx
            rcases ht2 with h1 | h1
            · exact Or.inl (hc.trans h1)
            · exact Or.inr (hc.trans h1)
          simp [ht2, hxt, List.filter_cons]
        · simp [ht2]

/-- The per-tag contents of `_ogr_get_domains`: exactly the parsed
definitions carrying that root tag, in catalog order. -/
theorem ogrGetDomains_lookup (rows : List (Option Xml)) (t : String)
    (ht : t = "GPCodedValueDomain2" ∨ t = "GPRangeDomain2") :
    groupLookup (ogrGetDomains rows) t =
      (rows.filterMap id).filter (fun x => x.tag = t) := by
  have h := ogrGetDomains_fold_lookup rows [] t
  rw [ogrGetDomains]
  rw [h]
  simp [groupLookup_nil, ht]

/-- Every group of `_ogr_get_domains` carries one of the two domain root
tags and only same-tagged definitions. -/
theorem mem_ogrGetDomains (rows : List (Option Xml)) (p : String × List Xml)
    (hp : p ∈ ogrGetDomains rows) :
    p.1 = "GPCodedValueDomain2" ∨ p.1 = "GPRangeDomain2" := by
  have aux : ∀ (rows : List (Option Xml)) (acc : List (String × List Xml)),
      ∀ p ∈ rows.foldl (fun d row =>
        match row with
        | none => d
        | some xml =>
          if xml.tag = "GPCodedValueDomain2" ∨ xml.tag = "GPRangeDomain2" then
            groupAppend d xml.tag xml
          else d) acc,
        (p.1 = "GPCodedValueDomain2" ∨ p.1 = "GPRangeDomain2") ∨ p ∈ acc := by
    intro rows
    induction rows with
    | nil => intro acc p hp; exact Or.inr hp
    | cons row rest ih =>
      intro acc p hp
      cases row with
      | none => exact ih acc p hp
      | some x =>
        simp only [List.foldl_cons] at hp
        by_cases hx : x.tag = "GPCodedValueDomain2" ∨ x.tag = "GPRangeDomain2"
        · rw [if_pos hx] at hp
          rcases ih (groupAppend acc x.tag x) p hp with h1 | h1
          · exact Or.inl h1
          · rcases mem_groupAppend acc x.tag x p h1 with h2 | h2
            · exact Or.inl (h2 ▸ hx)
            · exact Or.inr h2
        · rw [if_neg hx] at hp
          exact ih acc p hp
  rcases aux rows [] p hp with h | h
  · exact h
  · simp at h

theorem lookupOpt_dictUpsert_self :
    ∀ (d : List (Option String × Option String)) (k v : Option String),
      lookupOpt (dictUpsert d k v) k = some v := by
  intro d k v
  induction d with
  | nil => simp [dictUpsert, lookupOpt, List.find?]
  | cons p rest ih =>
    by_cases hpk : p.1 = k
    · simp [dictUpsert, hpk, lookupOpt, List.find?_cons]
    · simp only [dictUpsert, if_neg hpk]
      simp only [lookupOpt, List.find?_cons] at ih ⊢
      simp [hpk, ih]

theorem lookupOpt_dictUpsert_other :
    ∀ (d : List (Option String × Option String)) (k v k2 : Option String),
      ¬ (k2 = k) → lookupOpt (dictUpsert d k v) k2 = lookupOpt d k2 := by
  intro d k v k2 hne
  have hkk : ¬ (k = k2) := fun hc => hne hc.symm
  induction d with
  | nil => simp [dictUpsert, lookupOpt, List.find?, hkk]
  | cons p rest ih =>
    by_cases hpk : p.1 = k
    · have hp2 : ¬ (p.1 = k2) := fun hc => hkk (hpk ▸ hc)
      simp [dictUpsert, hpk, lookupOpt, List.find?_cons, hkk, hp2]
    · rw [dictUpsert, if_neg hpk]
      by_cases hp2 : p.1 = k2
      · simp [lookupOpt, List.find?_cons, hp2]
      · simp only [lookupOpt, List.find?_cons] at ih ⊢
        simp [hp2, ih]

theorem mem_keys_dictUpsert :
    ∀ (d : List (Option String × Option String)) (k v k2 : Option String),
      k2 ∈ (dictUpsert d k v).map Prod.fst ↔ k2 ∈ d.map Prod.fst ∨ k2 = k := by
  intro d k v k2
  induction d with
  | nil => simp [dictUpsert]
  | cons p rest ih =>
    by_cases hpk : p.1 = k
    · rw [dictUpsert, if_pos hpk]
      simp only [List.map_cons, List.mem_cons]
      constructor
      · rintro (h | h)
        · exact Or.inr h
        · exact Or.inl (Or.inr h)
      · rintro ((h | h) | h)
        · exact Or.inl (by rw [h, hpk])
        · exact Or.inr h
        · exact Or.inl h
    · rw [dictUpsert, if_neg hpk]
      simp only [List.map_cons, List.mem_cons, ih]
      tauto

/-- The coded-values comprehension leaves keys it never inserts
untouched. -/
theorem codedDict_fold_preserve :
    ∀ (cvs : List Xml) (acc m : List (Option String × Option String))
      (k : Option String),
      cvs.foldlM (fun d cv => do
        let c ← cv.find "Code"
        let n ← cv.find "Name"
        pure (dictUpsert d c.text n.text)) acc = some m →
      (∀ cv ∈ cvs, ∀ c, cv.find "Code" = some c → ¬ (c.text = k)) →
      lookupOpt m k = lookupOpt acc k := by
  intro cvs
  induction cvs with
  | nil =>
    intro acc m k h hno
    simp [List.foldlM] at h
    subst h
    rfl
  | cons cv rest ih =>
    intro acc m k h hno
    rw [List.foldlM_cons] at h
    cases hc : cv.find "Code" with
    | none => simp [hc] at h
    | some c =>
      cases hn : cv.find "Name" with
      | none => simp [hc, hn] at h
      | some n =>
        simp only [hc, hn, Option.some_bind, Option.pure_def] at h
        have hk : ¬ (c.text = k) := hno cv (List.mem_cons_self cv rest) c hc
        rw [ih (dictUpsert acc c.text n.text) m k h
          (fun cv2 hm2 c2 h2 => hno cv2 (List.mem_cons_of_mem cv hm2) c2 h2)]
        exact lookupOpt_dictUpsert_other acc c.text n.text k (fun h2 => hk h2.symm)

/-- The key set of the coded-values dict: exactly the `Code` texts of
the walked `CodedValue` children. -/
theorem codedDict_fold_keys :
    ∀ (cvs : List Xml) (acc m : List (Option String × Option String))
      (k : Option String),
      cvs.foldlM (fun d cv => do
        let c ← cv.find "Code"
        let n ← cv.find "Name"
        pure (dictUpsert d c.text n.text)) acc = some m →
      (k ∈ m.map Prod.fst ↔
        k ∈ acc.map Prod.fst ∨ ∃ cv ∈ cvs, ∃ c, cv.find "Code" = some c ∧ c.text = k) := by
  intro cvs
  induction cvs with
  | nil =>
    intro acc m k h
    simp [List.foldlM] at h
    subst h
    simp
  | cons cv rest ih =>
    intro acc m k h
    rw [List.foldlM_cons] at h
    cases hc : cv.find "Code" with
    | none => simp [hc] at h
    | some c =>
      cases hn : cv.find "Name" with
      | none => simp [hc, hn] at h
      | some n =>
        simp only [hc, hn, Option.some_bind, Option.pure_def] at h
        rw [ih (dictUpsert acc c.text n.text) m k h, mem_keys_dictUpsert]
        constructor
        · rintro ((h1 | h1) | h1)
          · exact Or.inl h1
          · exact Or.inr ⟨cv, List.mem_cons_self cv rest, c, hc, h1.symm⟩
          · rcases h1 with ⟨cv2, hm2, c2, hc2, ht2⟩
            exact Or.inr ⟨cv2, List.mem_cons_of_mem cv hm2, c2, hc2, ht2⟩
        · rintro (h1 | ⟨cv2, hm2, c2, hc2, ht2⟩)
          · exact Or.inl (Or.inl h1)
          · rcases List.mem_cons.1 hm2 with h3 | h3
            · subst h3
              rw [hc] at hc2
              cases hc2
              exact Or.inl (Or.inr ht2.symm)
            · exact Or.inr ⟨cv2, h3, c2, hc2, ht2⟩

/-- With pairwise distinct codes, each code looks up to its own display
name. -/
theorem codedDict_fold_lookup :
    ∀ (cvs : List Xml) (acc m : List (Option String × Option String)),
      cvs.foldlM (fun d cv => do
        let c ← cv.find "Code"
        let n ← cv.find "Name"
        pure (dictUpsert d c.text n.text)) acc = some m →
      (cvs.map (fun cv => (cv.find "Code").map Xml.text)).Nodup →
      ∀ cv ∈ cvs, ∀ c n, cv.find "Code" = some c → cv.find "Name" = some n →
        lookupOpt m c.text = some n.text := by
  intro cvs
  induction cvs with
  | nil =>
    intro acc m h hnd cv hm
    exact absurd hm (List.not_mem_nil cv)
  | cons cv0 rest ih =>
    intro acc m h hnd cv hm c n hcode hname
    rw [List.foldlM_cons] at h
    cases hc0 : cv0.find "Code" with
    | none => simp [hc0] at h
    | some c0 =>
      cases hn0 : cv0.find "Name" with
      | none => simp [hc0, hn0] at h
      | some n0 =>
        simp only [hc0, hn0, Option.some_bind, Option.pure_def] at h
        rw [List.map_cons, List.nodup_cons] at hnd
        rcases List.mem_cons.1 hm with h3 | h3
        · rw [h3] at hcode hname
          have hcc : c0 = c := Option.some.inj (hc0.symm.trans hcode)
          have hnn : n0 = n := Option.some.inj (hn0.symm.trans hname)
          rw [← hcc, ← hnn]
          have hnone : ∀ cv2 ∈ rest, ∀ c2, cv2.find "Code" = some c2 →
              ¬ (c2.text = c0.text) := by
            intro cv2 hm2 c2 hc2 he
            apply hnd.1
            rw [hc0]
            exact List.mem_map.2 ⟨cv2, hm2, by rw [hc2]; simp [he]⟩
          rw [codedDict_fold_preserve rest (dictUpsert acc c0.text n0.text) m c0.text h hnone]
          exact lookupOpt_dictUpsert_self acc c0.text n0.text
        · exact ih (dictUpsert acc c0.text n0.text) m h hnd.2 cv h3 c n hcode hname

/-- A successfully built fallback domain dict always carries the fixed
label list as its keys. -/
theorem buildDomainOdOgr_ok_keys (dt : String) (d : Xml) (od : Od)
    (h : buildDomainOdOgr dt d = .ok od) : odKeys od = domainLabels := by
  cases hr : rangeValue d with
  | ok rv =>
    rw [buildDomainOdOgr_ok dt d rv hr] at h
    cases h
    rfl
  | error e =>
    rw [buildDomainOdOgr_error dt d e hr] at h
    exact absurd h (by simp)

/-- Every dict emitted by the fallback `get_domains` is a successfully
built per-domain dict. -/
theorem getDomainsOgr_mem (g : Geodatabase) (ow : OgrWorld) (ods : List Od) (od : Od)
    (h : (Geodatabase.get_domains g (.ogr ow)).1 = .ok ods) (hod : od ∈ ods) :
    ∃ dt d, buildDomainOdOgr dt d = .ok od := by
  simp only [Geodatabase.get_domains] at h
  have hinner : ∀ (t : String) (acc2 : List Od) (d : Xml) (res2 : List Od) (od3 : Od),
      (do
        let od ← buildDomainOdOgr t d
        pure (acc2 ++ [od]) : Except PyExc (List Od)) = .ok res2 →
      od3 ∈ res2 → od3 ∈ acc2 ∨ ∃ dt d2, buildDomainOdOgr dt d2 = .ok od3 := by
    intro t acc2 d res2 od3 hstep2 hmem2
    cases hb : buildDomainOdOgr t d with
    | error e =>
      rw [hb, exceptBind_error] at hstep2
      exact absurd hstep2 (by simp)
    | ok od4 =>
      rw [hb, exceptBind_ok, exceptPure] at hstep2
      injection hstep2 with h5
      subst h5
      rcases List.mem_append.1 hmem2 with h2 | h2
      · exact Or.inl h2
      · exact Or.inr ⟨t, d, by rw [hb]; congr 1; exact (List.mem_singleton.1 h2).symm⟩
  have houter : ∀ (acc : List Od) (p : String × List Xml) (res : List Od) (od2 : Od),
      p.2.foldlM (fun acc2 domain => do
        let od ← buildDomainOdOgr p.1 domain
        pure (acc2 ++ [od])) acc = .ok res →
      od2 ∈ res → od2 ∈ acc ∨ ∃ dt d2, buildDomainOdOgr dt d2 = .ok od2 := by
    intro acc p res od2 hstep hmem
    exact foldlM_strict_mem _ (fun od => ∃ dt d2, buildDomainOdOgr dt d2 = .ok od)
      (hinner p.1) p.2 acc res hstep od2 hmem
  rcases foldlM_strict_mem _ (fun od => ∃ dt d2, buildDomainOdOgr dt d2 = .ok od)
      houter (ogrGetDomains ow.gdbItems) [] ods h od hod with h1 | h1
  · exact absurd h1 (List.not_mem_nil od)
  · exact h1

/-- Every dict emitted by the primary `get_feature_classes` is built
from a descriptor plus a `Feature dataset` tag. -/
theorem getFeatureClassesArcpy_mem (g : Geodatabase) (aw : ArcpyWorld)
    (r : List Od × List String) (od : Od)
    (h : (Geodatabase.get_feature_classes g (.arcpy aw)).1 = .ok r) (hod : od ∈ r.1) :
    ∃ fd inst, od = odSet (buildInstOd GDB_FC_PROPS inst) "Feature dataset" (.str fd) := by
  simp only [Geodatabase.get_feature_classes] at h
  have hroot_mem : ∀ (fcs fcs2 : List Od),
      collectItemsStrict (aw.fcInstance g.path)
        (fun inst => odSet (buildInstOd GDB_FC_PROPS inst) "Feature dataset" (.str ""))
        (aw.listFeatureClasses g.path) fcs = .ok fcs2 →
      od ∈ fcs2 → od ∈ fcs ∨
        ∃ fd inst, od = odSet (buildInstOd GDB_FC_PROPS inst) "Feature dataset" (.str fd) := by
    intro fcs fcs2 hroot hmem
    rcases collectItemsStrict_ok_mem (aw.fcInstance g.path)
        (fun inst => odSet (buildInstOd GDB_FC_PROPS inst) "Feature dataset" (.str ""))
        (aw.listFeatureClasses g.path) fcs fcs2 hroot od hmem with h3 | h3
    · exact Or.inl h3
    · rcases h3 with ⟨n, inst, _, he⟩
      exact Or.inr ⟨"", inst, he⟩
  by_cases hfd : aw.listDatasets ≠ []
  · rw [if_pos hfd] at h
    cases hin : aw.listDatasets.foldlM (fun acc fd =>
        collectItemsStrict (aw.fcInstance (pathJoin g.path fd))
          (fun inst => odSet (buildInstOd GDB_FC_PROPS inst) "Feature dataset" (.str fd))
          (aw.listFeatureClasses (pathJoin g.path fd)) acc) [] with
    | error e =>
      rw [hin, exceptBind_error] at h
      exact absurd h (by simp)
    | ok fcs =>
      rw [hin, exceptBind_ok] at h
      cases hroot : collectItemsStrict (aw.fcInstance g.path)
          (fun inst => odSet (buildInstOd GDB_FC_PROPS inst) "Feature dataset" (.str ""))
          (aw.listFeatureClasses g.path) fcs with
      | error e =>
        rw [hroot, exceptBind_error] at h
        exact absurd h (by simp)
      | ok fcs2 =>
        rw [hroot, exceptBind_ok, exceptPure] at h
        injection h with h2
        subst h2
        rcases hroot_mem fcs fcs2 hroot hod with hmem3 | hdone
        · have hstep : ∀ (acc : List Od) (fd : String) (res : List Od) (od2 : Od),
              collectItemsStrict (aw.fcInstance (pathJoin g.path fd))
                (fun inst => odSet (buildInstOd GDB_FC_PROPS inst) "Feature dataset" (.str fd))
                (aw.listFeatureClasses (pathJoin g.path fd)) acc = .ok res →
              od2 ∈ res → od2 ∈ acc ∨
                ∃ fd2 inst, od2 = odSet (buildInstOd GDB_FC_PROPS inst) "Feature dataset" (.str fd2) := by
            intro acc fd res od2 hs hm2
            rcases collectItemsStrict_ok_mem (aw.fcInstance (pathJoin g.path fd))
                (fun inst => odSet (buildInstOd GDB_FC_PROPS inst) "Feature dataset" (.str fd))
                (aw.listFeatureClasses (pathJoin g.path fd)) acc res hs od2 hm2 with h3 | h3
            · exact Or.inl h3
            · rcases h3 with ⟨n2, inst2, _, he2⟩
              exact Or.inr ⟨fd, inst2, he2⟩
          rcases foldlM_strict_mem _
              (fun od2 => ∃ fd2 inst,
                od2 = odSet (buildInstOd GDB_FC_PROPS inst) "Feature dataset" (.str fd2))
              hstep aw.listDatasets [] fcs hin od hmem3 with h4 | h4
          · exact absurd h4 (List.not_mem_nil od)
          · exact h4
        · exact hdone
  · rw [if_neg hfd, exceptBind_ok] at h
    cases hroot : collectItemsStrict (aw.fcInstance g.path)
        (fun inst => odSet (buildInstOd GDB_FC_PROPS inst) "Feature dataset" (.str ""))
        (aw.listFeatureClasses g.path) [] with
    | error e =>
      rw [hroot, exceptBind_error] at h
      exact absurd h (by simp)
    | ok fcs2 =>
      rw [hroot, exceptBind_ok, exceptPure] at h
      injection h with h2
      subst h2
      rcases hroot_mem [] fcs2 hroot hod with hmem3 | hdone
      · exact absurd hmem3 (List.not_mem_nil od)
      · exact hdone

/-- Closed form of the feature-dataset walk when every descriptor
builds. -/
theorem fdsFold_all_ok (g : Geodatabase) (aw : ArcpyWorld) (instOf : String → String → Inst)
    (hall : ∀ ws fc, aw.fcInstance ws fc = .ok (instOf ws fc)) :
    ∀ (fds : List String) (acc : List Od),
      fds.foldlM (fun acc fd =>
        collectItemsStrict (aw.fcInstance (pathJoin g.path fd))
          (fun inst => odSet (buildInstOd GDB_FC_PROPS inst) "Feature dataset" (.str fd))
          (aw.listFeatureClasses (pathJoin g.path fd)) acc) acc =
      .ok (acc ++ fds.flatMap (fun fd =>
        (aw.listFeatureClasses (pathJoin g.path fd)).map (fun fc =>
          odSet (buildInstOd GDB_FC_PROPS (instOf (pathJoin g.path fd) fc))
            "Feature dataset" (.str fd)))) := by
  intro fds
  induction fds with
  | nil => intro acc; simp [List.foldlM, exceptPure]
  | cons fd rest ih =>
    intro acc
    rw [List.foldlM_cons]
    rw [collectItemsStrict_all_ok (aw.fcInstance (pathJoin g.path fd)) _
      (instOf (pathJoin g.path fd)) (fun n => hall _ n)
      (aw.listFeatureClasses (pathJoin g.path fd)) acc]
    rw [exceptBind_ok]
    rw [ih]
    simp [List.flatMap_cons, List.append_assoc]

/-- C1 (amended): for every pair of backend worlds on the same
geodatabase, `get_pretty_props`, `get_domains` and `get_tables` emit
ordered mappings with the same fixed key list on both backends; for
`get_feature_classes` the primary path emits the fallback path's key
list plus a trailing `Feature dataset` key, which the fallback mappings
lack. -/
theorem c1_amended (g : Geodatabase) (aw : ArcpyWorld) (ow : OgrWorld) :
    (Geodatabase.get_pretty_props g).1.map odKeys = .ok prettyLabels
  ∧ (∀ ods od, (Geodatabase.get_domains g (.arcpy aw)).1 = .ok ods → od ∈ ods →
      odKeys od = domainLabels)
  ∧ (∀ ods od, (Geodatabase.get_domains g (.ogr ow)).1 = .ok ods → od ∈ ods →
      odKeys od = domainLabels)
  ∧ (∀ od, od ∈ (Geodatabase.get_tables g (.arcpy aw)).1.1 → odKeys od = tableLabels)
  ∧ (∀ od, od ∈ (Geodatabase.get_tables g (.ogr ow)).1.1 → odKeys od = tableLabels)
  ∧ (∀ r od, (Geodatabase.get_feature_classes g (.arcpy aw)).1 = .ok r → od ∈ r.1 →
      odKeys od = fcLabelsArcpy)
  ∧ (∀ r od, (Geodatabase.get_feature_classes g (.ogr ow)).1 = .ok r → od ∈ r.1 →
      odKeys od = fcLabelsOgr)
  ∧ fcLabelsArcpy = fcLabelsOgr ++ ["Feature dataset"] := by
  refine ⟨rfl, ?_, ?_, ?_, ?_, ?_, ?_, rfl⟩
  · intro ods od h hod
    simp only [Geodatabase.get_domains] at h
    injection h with h2
    subst h2
    rcases List.mem_map.1 hod with ⟨dobj, _, rfl⟩
    rfl
  · intro ods od h hod
    rcases getDomainsOgr_mem g ow ods od h hod with ⟨dt, d, hb⟩
    exact buildDomainOdOgr_ok_keys dt d od hb
  · intro od hod
    simp only [Geodatabase.get_tables] at hod
    rcases collectItems_mem _ _ _ _ od hod with ⟨n, inst, _, rfl⟩
    rfl
  · intro od hod
    simp only [Geodatabase.get_tables] at hod
    rcases collectItems_mem _ _ _ _ od hod with ⟨n, inst, _, rfl⟩
    rfl
  · intro r od h hod
    rcases getFeatureClassesArcpy_mem g aw r od h hod with ⟨fd, inst, rfl⟩
    rfl
  · intro r od h hod
    simp only [Geodatabase.get_feature_classes] at h
    injection h with h2
    subst h2
    rcases collectItems_mem _ _ _ _ od hod with ⟨n, inst, _, rfl⟩
    rfl

/-- C1 (witness): the amended key-parity theorem applied to a concrete
one-feature-class geodatabase. -/
theorem c1_amended_witness :
    odKeys (buildInstOd GDB_FC_PROPS sampleInst) = fcLabelsOgr :=
  (c1_amended gSample awOneFc owOneFc).2.2.2.2.2.2.1
    ([buildInstOd GDB_FC_PROPS sampleInst], []) (buildInstOd GDB_FC_PROPS sampleInst)
    rfl (by simp)

/-- C1 (counterexample): on the same logical geodatabase — one spatial
layer named `roads` — the primary backend's feature-class mapping has a
`Feature dataset` key that the fallback backend's mapping lacks, so the
key sets differ. -/
theorem c1_counterexample :
    (Geodatabase.get_feature_classes gSample (World.arcpy awOneFc)).1 =
      .ok ([odSet (buildInstOd GDB_FC_PROPS sampleInst) "Feature dataset" (.str "")], [])
  ∧ (Geodatabase.get_feature_classes gSample (World.ogr owOneFc)).1 =
      .ok ([buildInstOd GDB_FC_PROPS sampleInst], [])
  ∧ odKeys (odSet (buildInstOd GDB_FC_PROPS sampleInst) "Feature dataset" (.str "")) =
      fcLabelsArcpy
  ∧ odKeys (buildInstOd GDB_FC_PROPS sampleInst) = fcLabelsOgr
  ∧ fcLabelsArcpy ≠ fcLabelsOgr :=
  ⟨rfl, rfl, rfl, rfl, by decide⟩

/-- C2 (amended): `get_tables` on both backends and
`get_feature_classes` on the fallback backend catch per-item failures:
the output is exactly the dicts of the items whose descriptor built, in
order, plus one printed notice per failing item, and nothing is raised.
(The primary-path `get_feature_classes`, by contrast, propagates, see
the counterexample.) -/
theorem c2_amended (g : Geodatabase) (aw : ArcpyWorld) (ow : OgrWorld) :
    (Geodatabase.get_tables g (.arcpy aw)).1 =
      (aw.listTables.filterMap (fun n =>
          match aw.tableInstance n with
          | .ok inst => some (buildInstOd GDB_TABLE_PROPS inst)
          | .error _ => none),
       aw.listTables.filterMap (fun n =>
          match aw.tableInstance n with
          | .ok _ => none
          | .error e => some ("Error. Could not read table " ++ n ++ " . Reason: " ++ reprStr e)))
  ∧ (Geodatabase.get_tables g (.ogr ow)).1 =
      (((ow.layers.filter (fun l => l.geometryColumn = "")).map (fun l => l.name)).filterMap
          (fun n => match ow.tableInstance n with
          | .ok inst => some (buildInstOd GDB_TABLE_PROPS inst)
          | .error _ => none),
       ((ow.layers.filter (fun l => l.geometryColumn = "")).map (fun l => l.name)).filterMap
          (fun n => match ow.tableInstance n with
          | .ok _ => none
          | .error e => some (reprStr e)))
  ∧ (Geodatabase.get_feature_classes g (.ogr ow)).1 =
      .ok (((ow.layers.filter (fun l => l.geometryColumn ≠ "")).map (fun l => l.name)).filterMap
          (fun n => match ow.fcInstance n with
          | .ok inst => some (buildInstOd GDB_FC_PROPS inst)
          | .error _ => none),
        ((ow.layers.filter (fun l => l.geometryColumn ≠ "")).map (fun l => l.name)).filterMap
          (fun n => match ow.fcInstance n with
          | .ok _ => none
          | .error e => some (reprStr e))) := by
  refine ⟨?_, ?_, ?_⟩
  · simp only [Geodatabase.get_tables]
    exact collectItems_spec _ _ _ _
  · simp only [Geodatabase.get_tables]
    exact collectItems_spec _ _ _ _
  · simp only [Geodatabase.get_feature_classes]
    rw [collectItems_spec]

/-- C2 (counterexample): on the primary backend a failing feature-class
descriptor construction is not caught — `get_feature_classes` raises the
per-item error to the caller. -/
theorem c2_counterexample :
    (Geodatabase.get_feature_classes gSample (World.arcpy awFcFails)).1 =
      .error (.other "arcgis error") := rfl

/-- C3: on the primary backend (all descriptors building),
`get_feature_classes` first emits the feature classes of each feature
dataset, tagging each mapping's `Feature dataset` entry with that
dataset's name, then the root feature classes tagged with the empty
string; the fallback backend writes no `Feature dataset` entry at all. -/
theorem c3_feature_dataset_tagging (g : Geodatabase) (aw : ArcpyWorld) (ow : OgrWorld)
    (instOf : String → String → Inst)
    (hall : ∀ ws fc, aw.fcInstance ws fc = .ok (instOf ws fc)) :
    (Geodatabase.get_feature_classes g (.arcpy aw)).1 =
      .ok (aw.listDatasets.flatMap (fun fd =>
            (aw.listFeatureClasses (pathJoin g.path fd)).map (fun fc =>
              odSet (buildInstOd GDB_FC_PROPS (instOf (pathJoin g.path fd) fc))
                "Feature dataset" (.str fd)))
          ++ (aw.listFeatureClasses g.path).map (fun fc =>
              odSet (buildInstOd GDB_FC_PROPS (instOf g.path fc))
                "Feature dataset" (.str "")), [])
  ∧ (∀ inst fd, odLookup (odSet (buildInstOd GDB_FC_PROPS inst) "Feature dataset" (.str fd))
        "Feature dataset" = some (.str fd))
  ∧ (∀ r od, (Geodatabase.get_feature_classes g (.ogr ow)).1 = .ok r → od ∈ r.1 →
      odLookup od "Feature dataset" = none) := by
  refine ⟨?_, ?_, ?_⟩
  · simp only [Geodatabase.get_feature_classes]
    by_cases hfd : aw.listDatasets ≠ []
    · rw [if_pos hfd]
      rw [fdsFold_all_ok g aw instOf hall aw.listDatasets []]
      rw [exceptBind_ok]
      rw [collectItemsStrict_all_ok (aw.fcInstance g.path) _ (instOf g.path)
        (fun n => hall _ n) (aw.listFeatureClasses g.path) _]
      rw [exceptBind_ok, exceptPure]
      simp
    · have he : aw.listDatasets = [] := not_not.1 hfd
      rw [if_neg hfd, exceptBind_ok]
      rw [collectItemsStrict_all_ok (aw.fcInstance g.path) _ (instOf g.path)
        (fun n => hall _ n) (aw.listFeatureClasses g.path) _]
      rw [exceptBind_ok, exceptPure]
      rw [he]
      simp
  · intro inst fd
    rfl
  · intro r od h hod
    simp only [Geodatabase.get_feature_classes] at h
    injection h with h2
    subst h2
    rcases collectItems_mem _ _ _ _ od hod with ⟨n, inst, _, rfl⟩
    rfl

/-- C3 (witness): the tagging theorem applied to a concrete world with a
single root feature class. -/
theorem c3_witness :
    (Geodatabase.get_feature_classes gSample (World.arcpy awOneFc)).1 =
      .ok ([odSet (buildInstOd GDB_FC_PROPS sampleInst) "Feature dataset" (.str "")], [])
  ∧ odLookup (odSet (buildInstOd GDB_FC_PROPS sampleInst) "Feature dataset" (.str "Parcels"))
      "Feature dataset" = some (.str "Parcels") := by
  have h := c3_feature_dataset_tagging gSample awOneFc owOneFc
    (fun _ _ => sampleInst) (fun _ _ => rfl)
  exact ⟨h.1, h.2.1 sampleInst "Parcels"⟩

/-- C8: construction is deterministic in the backend world and the path:
two accessors built on the same path have identical release and
workspace-type attributes. -/
theorem c8_deterministic_construction (w : World) (path : String) (g1 g2 : Geodatabase)
    (h1 : mkGeodatabase w path = .ok g1) (h2 : mkGeodatabase w path = .ok g2) :
    g1.release = g2.release ∧ g1.wkspc_type = g2.wkspc_type := by
  rw [h1] at h2
  injection h2 with h3
  rw [h3]
  exact ⟨rfl, rfl⟩

/-- C8 (witness): a concrete successful construction on the fallback
backend, compared with itself. -/
theorem c8_deterministic_construction_witness :
    mkGeodatabase (World.ogr owCatalog) "sample.gdb" = .ok gSample
  ∧ gSample.release = gSample.release ∧ gSample.wkspc_type = gSample.wkspc_type :=
  ⟨rfl, c8_deterministic_construction (World.ogr owCatalog) "sample.gdb" gSample gSample rfl rfl⟩

/-- C9: no query method writes any attribute of the accessor object —
each returns `self` unchanged — and `get_pretty_props` is exactly the
projection of the three stored attributes through the fixed
`GDB_PROPS` labels. -/
theorem c9_immutable (g : Geodatabase) (w : World) :
    (Geodatabase.get_pretty_props g).2 = g
  ∧ (Geodatabase.get_domains g w).2 = g
  ∧ (Geodatabase.get_tables g w).2 = g
  ∧ (Geodatabase.get_feature_classes g w).2 = g
  ∧ (Geodatabase.get_pretty_props g).1 =
      .ok [("Path", .str g.path), ("Release", .str g.release),
           ("Workspace type", .str g.wkspc_type)] := by
  refine ⟨rfl, ?_, ?_, ?_, rfl⟩ <;> cases w <;> rfl

/-- C10: when the proprietary backend is unavailable, the workspace type
is the constant `File geodatabase`, whatever the path and the actual
container; every accessor constructed on the fallback backend stores
it. -/
theorem c10_fallback_wkspc_type (ow : OgrWorld) (path : String) :
    getWkspcType (World.ogr ow) path = .ok "File geodatabase"
  ∧ (∀ g, mkGeodatabase (World.ogr ow) path = .ok g →
      g.wkspc_type = "File geodatabase") := by
  refine ⟨rfl, ?_⟩
  intro g h
  rw [mkGeodatabase] at h
  cases hr : getRelease (World.ogr ow) path with
  | error e =>
    rw [hr, exceptBind_error] at h
    exact absurd h (by simp)
  | ok rel =>
    rw [hr, exceptBind_ok] at h
    rw [show (getWkspcType (World.ogr ow) path) = .ok "File geodatabase" from rfl,
      exceptBind_ok, exceptPure] at h
    injection h with h2
    rw [← h2]

/-- C10 (witness): a concrete fallback construction stores
`File geodatabase`. -/
theorem c10_fallback_wkspc_type_witness :
    mkGeodatabase (World.ogr owCatalog) "sample.gdb" = .ok gSample
  ∧ gSample.wkspc_type = "File geodatabase" :=
  ⟨rfl, (c10_fallback_wkspc_type owCatalog "sample.gdb").2 gSample rfl⟩

/-- C5 (amended): the range branch of `get_domains` passes the stored
bounds through verbatim — so the returned range satisfies min ≤ max
exactly when the source definition's bounds are ordered — and falls back
to the empty-string placeholder when either bound's element is absent. -/
theorem c5_amended (dt : String) (d : Xml) (od : Od)
    (hok : buildDomainOdOgr dt d = .ok od) :
    (∀ e1 t1 q1 e2 t2 q2, d.find "MinValue" = some e1 → e1.text = some t1 →
        parseFloat t1 = some q1 → d.find "MaxValue" = some e2 → e2.text = some t2 →
        parseFloat t2 = some q2 → odLookup od "Range" = some (.range q1 q2))
  ∧ ((d.find "MinValue" = none ∨ d.find "MaxValue" = none) →
        odLookup od "Range" = some (.str "")) := by
  cases hr : rangeValue d with
  | error e =>
    rw [buildDomainOdOgr_error dt d e hr] at hok
    exact absurd hok (by simp)
  | ok rv =>
    rw [buildDomainOdOgr_ok dt d rv hr] at hok
    injection hok with h2
    subst h2
    constructor
    · intro e1 t1 q1 e2 t2 q2 h1 ht1 hp1 h2m ht2 hp2
      have hb := rangeValue_both d e1 e2 t1 t2 q1 q2 h1 ht1 hp1 h2m ht2 hp2
      rw [hr] at hb
      injection hb with h3
      rw [h3]
      exact rfl
    · intro hor
      have hrv : rv = .str "" := by
        rcases hor with hmin | hmax
        · have hv := rangeValue_min_absent d hmin
          rw [hr] at hv
          injection hv
        · exact rangeValue_ok_max_absent d rv hmax hr
      rw [hrv]
      exact rfl

/-- C5 (witness): the amended theorem applied to a well-formed range
domain with bounds 2 and 5. -/
theorem c5_amended_witness :
    buildDomainOdOgr "GPRangeDomain2" dRangeGood = .ok odRangeGood
  ∧ odLookup odRangeGood "Range" = some (.range 2 5) :=
  ⟨rfl, (c5_amended "GPRangeDomain2" dRangeGood odRangeGood rfl).1
    (Xml.mk "MinValue" (some "2") []) "2" 2 (Xml.mk "MaxValue" (some "5") []) "5" 5
    rfl rfl rfl rfl rfl rfl⟩

/-- C5 (counterexample): the code does not enforce min ≤ max — a range
domain stored as (5, 2) is returned as (5, 2), and 5 ≤ 2 fails. -/
theorem c5_counterexample :
    rangeValue dRangeBad = .ok (.range 5 2)
  ∧ (Geodatabase.get_domains gSample (World.ogr owBadRange)).1.map
      (fun ods => ods.map (fun od => odLookup od "Range")) = .ok [some (.range 5 2)]
  ∧ ¬ ((5 : Rat) ≤ 2) :=
  ⟨rfl, rfl, by decide⟩

/-- A successfully built fallback domain dict maps `Range` to the
empty-string placeholder when either bound's element is missing. -/
theorem domainOd_range_absent (dt : String) (d : Xml) (od : Od)
    (hok : buildDomainOdOgr dt d = .ok od)
    (hor : d.find "MinValue" = none ∨ d.find "MaxValue" = none) :
    odLookup od "Range" = some (.str "") := by
  cases hr : rangeValue d with
  | error e =>
    rw [buildDomainOdOgr_error dt d e hr] at hok
    exact absurd hok (by simp)
  | ok rv =>
    rw [buildDomainOdOgr_ok dt d rv hr] at hok
    injection hok with h2
    subst h2
    have hrv : rv = .str "" := by
      rcases hor with hmin | hmax
      · have hv := rangeValue_min_absent d hmin
        rw [hr] at hv
        injection hv
      · exact rangeValue_ok_max_absent d rv hmax hr
    rw [hrv]
    exact rfl

/-- A successfully built fallback domain dict maps the label of a
missing generic sub-element to the empty string. -/
theorem domainOd_generic_absent (dt : String) (d : Xml) (od : Od)
    (hok : buildDomainOdOgr dt d = .ok od) :
    ∀ k v, (k, v) ∈ OGR_GDB_DOMAIN_PROPS → k ≠ "domainType" → k ≠ "range" →
      k ≠ "codedValues" → d.find k = none → odLookup od v = some (.str "") := by
  cases hr : rangeValue d with
  | error e =>
    rw [buildDomainOdOgr_error dt d e hr] at hok
    exact absurd hok (by simp)
  | ok rv =>
    rw [buildDomainOdOgr_ok dt d rv hr] at hok
    injection hok with h2
    subst h2
    intro k v hmem hk1 hk2 hk3 hfind
    simp only [OGR_GDB_DOMAIN_PROPS, List.mem_cons, List.not_mem_nil, or_false] at hmem
    rcases hmem with h | h | h | h | h | h | h <;> rw [Prod.mk.injEq] at h <;>
      rcases h with ⟨hl, hr2⟩ <;> subst hl <;> subst hr2
    · simp [odLookup, List.find?, genericValue, hfind]
    · simp [odLookup, List.find?, genericValue, hfind]
    · simp [odLookup, List.find?, genericValue, hfind]
    · simp [odLookup, List.find?, genericValue, hfind]
    · exact absurd rfl hk1
    · exact absurd rfl hk2
    · exact absurd rfl hk3

/-- A successfully built fallback domain dict maps `Coded values` to the
empty string when the `CodedValues` container is missing. -/
theorem domainOd_coded_absent (dt : String) (d : Xml) (od : Od)
    (hok : buildDomainOdOgr dt d = .ok od)
    (hfind : d.find "CodedValues" = none) :
    odLookup od "Coded values" = some (.str "") := by
  cases hr : rangeValue d with
  | error e =>
    rw [buildDomainOdOgr_error dt d e hr] at hok
    exact absurd hok (by simp)
  | ok rv =>
    rw [buildDomainOdOgr_ok dt d rv hr] at hok
    injection hok with h2
    subst h2
    simp [odLookup, List.find?, codedValuesValue, hfind]

/-- C6: on the fallback path a missing optional sub-element of a domain
definition never raises: an error requires a present `MinValue` with bad
text (`TypeError`/`ValueError`, never the caught `AttributeError`), and
in every successful dict the key list is complete while each missing
sub-element's property is the empty string. -/
theorem c6_missing_subelements (dt : String) (d : Xml) :
    (∀ e, buildDomainOdOgr dt d = .error e →
        (∃ el, d.find "MinValue" = some el) ∧ (e = .typeError ∨ e = .valueError))
  ∧ (∀ od, buildDomainOdOgr dt d = .ok od →
        odKeys od = domainLabels
      ∧ (∀ k v, (k, v) ∈ OGR_GDB_DOMAIN_PROPS → k ≠ "domainType" → k ≠ "range" →
          k ≠ "codedValues" → d.find k = none → odLookup od v = some (.str ""))
      ∧ ((d.find "MinValue" = none ∨ d.find "MaxValue" = none) →
          odLookup od "Range" = some (.str ""))
      ∧ (d.find "CodedValues" = none →
          odLookup od "Coded values" = some (.str ""))) := by
  constructor
  · intro e herr
    cases hr : rangeValue d with
    | ok rv =>
      rw [buildDomainOdOgr_ok dt d rv hr] at herr
      exact absurd herr (by simp)
    | error e2 =>
      rw [buildDomainOdOgr_error dt d e2 hr] at herr
      injection herr with h2
      subst h2
      exact rangeValue_error_shape d e2 hr
  · intro od hok
    exact ⟨buildDomainOdOgr_ok_keys dt d od hok,
      domainOd_generic_absent dt d od hok,
      domainOd_range_absent dt d od hok,
      domainOd_coded_absent dt d od hok⟩

/-- C6 (witness): the theorem applied to a bare range-domain definition
missing every optional sub-element. -/
theorem c6_witness :
    buildDomainOdOgr "GPRangeDomain2" dBare = .ok odBare
  ∧ odKeys odBare = domainLabels
  ∧ odLookup odBare "Range" = some (.str "")
  ∧ odLookup odBare "Coded values" = some (.str "")
  ∧ odLookup odBare "Name" = some (.str "") := by
  have h := (c6_missing_subelements "GPRangeDomain2" dBare).2 odBare rfl
  exact ⟨rfl, h.1, h.2.2.1 (Or.inl rfl), h.2.2.2 rfl,
    h.2.1 "DomainName" "Name" (by decide) (by decide) (by decide) (by decide) rfl⟩

/-- C7: the fallback domain scan classifies by root tag alone — every
group it returns carries one of the two domain tags, the group of each
domain tag holds exactly the parsed catalog definitions with that root
tag (any other tag is ignored), and the emitted `Domain type` label is
the static lookup of the group's tag. -/
theorem c7_tag_classification (rows : List (Option Xml)) :
    (∀ p ∈ ogrGetDomains rows, p.1 = "GPCodedValueDomain2" ∨ p.1 = "GPRangeDomain2")
  ∧ (∀ t, t = "GPCodedValueDomain2" ∨ t = "GPRangeDomain2" →
      groupLookup (ogrGetDomains rows) t =
        (rows.filterMap id).filter (fun x => x.tag = t))
  ∧ (∀ dt d od, buildDomainOdOgr dt d = .ok od →
      odLookup od "Domain type" =
        some (.str (dictGet OGR_DOMAIN_PROPS_MAPPINGS dt ""))) := by
  refine ⟨?_, ?_, ?_⟩
  · intro p hp
    exact mem_ogrGetDomains rows p hp
  · intro t ht
    exact ogrGetDomains_lookup rows t ht
  · intro dt d od hok
    cases hr : rangeValue d with
    | error e =>
      rw [buildDomainOdOgr_error dt d e hr] at hok
      exact absurd hok (by simp)
    | ok rv =>
      rw [buildDomainOdOgr_ok dt d rv hr] at hok
      injection hok with h2
      subst h2
      exact rfl

/-- C7 (witness): the classification theorem applied to a concrete
catalog holding a workspace row, a coded-value domain, an unrelated
definition and a range domain. -/
theorem c7_witness :
    ogrGetDomains owCatalog.gdbItems =
      [("GPCodedValueDomain2", [dCoded]), ("GPRangeDomain2", [dRangeGood])]
  ∧ groupLookup (ogrGetDomains owCatalog.gdbItems) "GPRangeDomain2" = [dRangeGood] :=
  ⟨rfl,
    ((c7_tag_classification owCatalog.gdbItems).2.1 "GPRangeDomain2" (Or.inr rfl)).trans rfl⟩

/-- C4: for a coded-value domain whose `CodedValue` children each carry
`Code` and `Name` (and whose codes are pairwise distinct), the returned
code→name dict's key set is exactly the set of `Code` texts of the
definition's `CodedValue` children, and each code maps to that coded
value's `Name` text. -/
theorem c4_coded_values (dt : String) (d : Xml) (od : Od) (cvsEl : Xml)
    (m : List (Option String × Option String))
    (hok : buildDomainOdOgr dt d = .ok od)
    (hel : d.find "CodedValues" = some cvsEl)
    (hm : codedDict (cvsEl.findall "CodedValue") = some m)
    (hnd : ((cvsEl.findall "CodedValue").map
      (fun cv => (cv.find "Code").map Xml.text)).Nodup) :
    odLookup od "Coded values" = some (.coded m)
  ∧ (∀ k, k ∈ m.map Prod.fst ↔
      ∃ cv ∈ cvsEl.findall "CodedValue", ∃ c, cv.find "Code" = some c ∧ c.text = k)
  ∧ (∀ cv ∈ cvsEl.findall "CodedValue", ∀ c n, cv.find "Code" = some c →
      cv.find "Name" = some n → lookupOpt m c.text = some n.text) := by
  have hcv : codedValuesValue d = .coded m := by
    rw [codedValuesValue]
    simp [hel, hm]
  rw [codedDict] at hm
  refine ⟨?_, ?_, ?_⟩
  · cases hr : rangeValue d with
    | error e =>
      rw [buildDomainOdOgr_error dt d e hr] at hok
      exact absurd hok (by simp)
    | ok rv =>
      rw [buildDomainOdOgr_ok dt d rv hr] at hok
      injection hok with h2
      subst h2
      rw [show odLookup
          [("Name", genericValue d "DomainName"), ("Owner", genericValue d "Owner"),
           ("Description", genericValue d "Description"),
           ("Field type", genericValue d "FieldType"),
           ("Domain type", .str (dictGet OGR_DOMAIN_PROPS_MAPPINGS dt "")),
           ("Range", rv), ("Coded values", codedValuesValue d)] "Coded values" =
          some (codedValuesValue d) from rfl, hcv]
  · intro k
    have h := codedDict_fold_keys (cvsEl.findall "CodedValue") [] m k hm
    simpa using h
  · intro cv hmcv c n hc hn
    exact codedDict_fold_lookup (cvsEl.findall "CodedValue") [] m hm hnd cv hmcv c n hc hn

/-- C4 (witness): the coded-values theorem applied to a concrete domain
with codes 1 → Yes and 2 → No. -/
theorem c4_witness :
    buildDomainOdOgr "GPCodedValueDomain2" dCoded = .ok odCoded
  ∧ odLookup odCoded "Coded values" =
      some (.coded [(some "1", some "Yes"), (some "2", some "No")])
  ∧ lookupOpt [(some "1", some "Yes"), (some "2", some "No")] (some "1") =
      some (some "Yes") := by
  have h := c4_coded_values "GPCodedValueDomain2" dCoded odCoded cvsElCoded
    [(some "1", some "Yes"), (some "2", some "No")] rfl rfl rfl (by decide)
  refine ⟨rfl, h.1, ?_⟩
  have hmem : cvYes ∈ cvsElCoded.findall "CodedValue" := by
    rw [show cvsElCoded.findall "CodedValue" = [cvYes, cvNo] from rfl]
    exact List.mem_cons_self cvYes [cvNo]
  exact h.2.2 cvYes hmem (.mk "Code" (some "1") []) (.mk "Name" (some "Yes") [])
    rfl rfl
